import Mathlib

/-!
Verification development for the `pyiron_base` workflow manager.

The repository's Python implementation is not present in the source
snapshot (only CI configuration, documentation, notebooks and design
notes are), so the operations below are modelled from the repository's
specification documents: `spec.md` (status machine §3/§4.3, execution
pipeline §4.4, storage binding §4.2, registry §4.1, external interfaces
§6) together with `specs/has_groups.md` and `docs/source/tutorial.md`.
Each definition's doc comment names the part of the spec it embeds.
-/

namespace PyironBase

/-! ## Status machine (spec §3, §4.3) -/

/-- Modelled from the spec: the job status enum of §3, with values
`initialized, created, submitted, running, collect, finished, aborted,
not_converged, suspended, refresh, busy`.  The first value is named
`initial` here. -/
inductive Status where
  | initial
  | created
  | submitted
  | running
  | collect
  | finished
  | aborted
  | not_converged
  | suspended
  | refresh
  | busy
deriving DecidableEq, Repr

/-- Modelled from the spec: "Status is terminal once in
`{finished, aborted, not_converged}`" (§3). -/
def Status.isTerminal : Status → Bool
  | .finished => true
  | .aborted => true
  | .not_converged => true
  | _ => false

/-- Modelled from the spec: the legal-transition graph of §3/§4.3.
Lifecycle edges `initialized → created → submitted → running → collect →
finished/not_converged`; failure edges into `aborted` from every
non-terminal phase; `suspended` parks a submitted job for manual
resumption; `refresh`/`busy` are the transient reload-protocol markers
(claim `submitted/running → busy`, then `busy → running`).  No edge
leaves `finished`, `aborted` or `not_converged`. -/
def legalTransition : Status → Status → Bool
  | .initial, .created => true
  | .created, .submitted => true
  | .submitted, .running => true
  | .submitted, .busy => true
  | .submitted, .refresh => true
  | .submitted, .suspended => true
  | .suspended, .submitted => true
  | .refresh, .busy => true
  | .refresh, .running => true
  | .busy, .running => true
  | .running, .collect => true
  | .running, .busy => true
  | .collect, .finished => true
  | .collect, .not_converged => true
  | .initial, .aborted => true
  | .created, .aborted => true
  | .submitted, .aborted => true
  | .running, .aborted => true
  | .collect, .aborted => true
  | .suspended, .aborted => true
  | .refresh, .aborted => true
  | .busy, .aborted => true
  | _, _ => false

/-- Error taxonomy of spec §7 (the members that the modelled operations
below can raise). -/
inductive CoreError where
  | conflict
  | notFound
deriving DecidableEq, Repr

/-- Modelled from the spec: the status machine "enforces legal status
transitions" (§4.3); an attempted transition that is not in the graph is
rejected with a `ConflictError` and the status does not change. -/
def applyTransition (s t : Status) : Except CoreError Status :=
  if legalTransition s t then .ok t else .error .conflict

/-! ## Association lists (shared helper for name-keyed maps) -/

/-- Lookup by string key in an association list. -/
def assocLookup {α : Type} : List (String × α) → String → Option α
  | [], _ => none
  | (k, v) :: rest, n => if k = n then some v else assocLookup rest n

/-- Replace the value stored under an existing key, or append the pair
when the key is absent. -/
def assocSet {α : Type} : List (String × α) → String → α → List (String × α)
  | [], n, v => [(n, v)]
  | (k, w) :: rest, n, v =>
      if k = n then (n, v) :: rest else (k, w) :: assocSet rest n v

/-! ## Identity: job creation in a project (spec §3 "Job Identity", §4.1) -/

/-- The visible outcome of a job-creation request (spec §3 and §8
"Idempotent ID allocation"). -/
inductive CreateResult where
  | loaded (id : Nat)
  | createdNew (id : Nat)
  | conflict
deriving DecidableEq, Repr

/-- A project's name ↦ job-id table together with the index's ID
allocator (spec §4.1: "ID allocation: delegated to the external index";
`nextId` models the index's atomic allocator). -/
structure ProjectState where
  jobs : List (String × Nat)
  nextId : Nat
deriving DecidableEq, Repr

/-- Modelled from the spec: creating a job in a project (§3): a fresh
name allocates a new unique id from the index; "creating a second job
with the same name in the same project is either a no-op load of the
existing job or an explicit error, never silent overwrite" — the
reference behavior is the no-op load, returning the existing job
unchanged. -/
def create_job (st : ProjectState) (name : String) : CreateResult × ProjectState :=
  match assocLookup st.jobs name with
  | some id => (.loaded id, st)
  | none =>
      (.createdNew st.nextId,
        { jobs := (name, st.nextId) :: st.jobs, nextId := st.nextId + 1 })

/-! ## Index store and the CAS claim step (spec §4.3, §6) -/

/-- The Index Record row of spec §3 restricted to the fields the claim
step reads and writes. -/
structure IndexRow where
  job_id : Nat
  status : Status
deriving DecidableEq, Repr

/-- Modelled from the spec: `update_status(id, old_status, new_status)
-> bool` of §6 — "atomic CAS semantics — returns false if `old_status`
no longer matches, used by the claim step". -/
def update_status (row : IndexRow) (old new : Status) : Bool × IndexRow :=
  if row.status = old then (true, { row with status := new })
  else (false, row)

/-- Modelled from the spec: one compute-node process performing the
reload protocol's claim step (§4.3): atomically move the row from
`submitted` to `busy`; when the CAS fails the claimant receives
`ConflictError` and "performs no execution" — it executes the job
exactly when its claim succeeded. -/
def claim_step (row : IndexRow) : Except CoreError Unit × Bool × IndexRow :=
  match update_status row .submitted .busy with
  | (true, row1) => (.ok (), true, row1)
  | (false, row1) => (.error .conflict, false, row1)

/-- Run the claim step once per process in `pids`, in schedule order,
against the shared index row; for each process record whether its claim
succeeded (and hence whether it executed the job). -/
def runClaims (row : IndexRow) : List Nat → List (Nat × Bool) × IndexRow
  | [] => ([], row)
  | p :: ps =>
      let (_, okP, row1) := claim_step row
      let (rest, rowF) := runClaims row1 ps
      ((p, okP) :: rest, rowF)

/-! ## Finalize step of the execution pipeline (spec §4.4, §5) -/

/-- The observable state that the finalize ordering invariant speaks
about: whether storage contains the committed output, the status stored
in the Job Record, and the status shown by the Index Record. -/
structure FinalizeState where
  storage_output : Bool
  storage_status : Status
  index_status : Status
deriving DecidableEq, Repr

/-- Modelled from the spec (§4.4 Finalize, first half): commit `output`
to storage and move the stored status to `finished` (or `not_converged`
when the job reports non-convergence via its output flag). -/
def commit_output (converged : Bool) (s : FinalizeState) : FinalizeState :=
  { s with
    storage_output := true
    storage_status := if converged then .finished else .not_converged }

/-- Modelled from the spec (§4.4 Finalize, second half): "the Index
Record is updated as the last step" — copy the stored status into the
index row. -/
def update_index (s : FinalizeState) : FinalizeState :=
  { s with index_status := s.storage_status }

/-- Modelled from the spec: the finalize step as the ordered list of its
two actions, storage-commit first, index-update last (§4.4 "ordering
invariant: storage-commit happens-before index-update"). -/
def finalizeSteps (converged : Bool) : List (FinalizeState → FinalizeState) :=
  [commit_output converged, update_index]

/-- Run a prefix-injectable sequence of steps; a fault injected after
`k` steps is modelled by running only `steps.take k`. -/
def runSteps (steps : List (FinalizeState → FinalizeState)) (s : FinalizeState) :
    FinalizeState :=
  steps.foldl (fun a f => f a) s

/-! ## Python-function jobs run in modal mode (spec §4.4, §4.5;
`docs/source/tutorial.md` and the examples document) -/

/-- A python-function job handle: integer-valued `input` and `output`
dictionaries plus the job status (tutorial: `job.input`, `job.output`,
`job.run()`). -/
structure PyFnJob where
  input : List (String × Int)
  output : List (String × Int)
  status : Status
deriving DecidableEq, Repr

/-- The test function of the tutorial and examples:
`def test_function(a, b=8): return a+b`. -/
def test_function (a : Int) (b : Int := 8) : Int := a + b

/-- Modelled from the spec: `pr.wrap_python_function(f)` returns a fresh
job whose input and output are empty and whose status is the initial
status (tutorial; spec §4.1/§3 lifecycle start). -/
def wrap_python_function : PyFnJob :=
  { input := [], output := [], status := .initial }

/-- Modelled from the spec: the modal (blocking) run of a two-argument
python-function job (§4.4): "arguments come from `input`; the return
value is written to `output`" under the key `result` (tutorial:
`job.output["result"]`), and the caller blocks until the terminal
status `finished`; a missing argument is an execution failure recorded
as `aborted` (§7). -/
def run_modal_pyfn (f : Int → Int → Int) (job : PyFnJob) : PyFnJob :=
  match assocLookup job.input "a", assocLookup job.input "b" with
  | some a, some b =>
      { job with output := [("result", f a b)], status := .finished }
  | _, _ => { job with status := .aborted }

/-! ## Hierarchical storage binding (spec §4.2, §6; `specs/has_groups.md`) -/

/-- A supported storage value (spec §4.2 "typed value"). -/
inductive Value where
  | int (n : Int)
  | str (s : String)
  | boolean (b : Bool)
deriving DecidableEq, Repr

/-- Modelled from the spec: the hierarchical key-value tree of §3/§4.2 —
leaf values ("nodes") and sub-trees ("groups") keyed by name. -/
inductive HTree where
  | leaf (v : Value)
  | group (children : List (String × HTree))

/-- The immediate children of a tree (empty for a leaf). -/
def HTree.children : HTree → List (String × HTree)
  | .leaf _ => []
  | .group ch => ch

/-- The names of the immediate children. -/
def HTree.childNames (t : HTree) : List String :=
  t.children.map Prod.fst

/-- Whether a tree is an interior vertex ("group"); in `has_groups.md`
terms, whether the contained object is itself a `HasGroups` instance. -/
def HTree.isGroup : HTree → Bool
  | .leaf _ => false
  | .group _ => true

/-- Modelled from the spec: `write(path, value)` of §4.2 — "writes a
typed value at a slash-separated path; creates intermediate groups"
(replacing a leaf found on the way by a group). -/
def write (t : HTree) : List String → Value → HTree
  | [], v => .leaf v
  | k :: rest, v =>
      let sub := match assocLookup t.children k with
        | some c => c
        | none => .group []
      .group (assocSet t.children k (write sub rest v))
  termination_by p _ => p.length

/-- Modelled from the spec: `read(path)` of §4.2 — returns the leaf or
the entire subtree at the path, or fails (`NotFoundError`, modelled as
`none`) when the path is absent. -/
def read (t : HTree) : List String → Option HTree
  | [] => some t
  | k :: rest =>
      match assocLookup t.children k with
      | some c => read c rest
      | none => none
  termination_by p => p.length

/-- `read` restricted to leaf values: the value stored at the path. -/
def readValue (t : HTree) (p : List String) : Option Value :=
  match read t p with
  | some (.leaf v) => some v
  | _ => none

/-- Modelled from the spec: `list_nodes(path)` of §4.2 — names of the
immediate children that are leaf values. -/
def list_nodes (t : HTree) : List String :=
  (t.children.filter fun kv => !kv.2.isGroup).map Prod.fst

/-- Modelled from the spec: `list_groups(path)` of §4.2 — names of the
immediate children that are sub-trees. -/
def list_groups (t : HTree) : List String :=
  (t.children.filter fun kv => kv.2.isGroup).map Prod.fst

/-! ## Job-type registry (spec §4.1; `specs/has_groups.md` "Job
registration") -/

/-- Modelled from the spec: `JobType.register(module_path, class_name,
overwrite=false)` (§4.1): "adds a mapping; fails with `ConflictError`
if a different class is already registered under that name unless
`overwrite` is set".  The registry maps a class name to the module path
identifying the class; registering the same class again is the sanity
check passing, not a conflict. -/
def register (reg : List (String × String)) (module_path class_name : String)
    (overwrite : Bool) : Except CoreError (List (String × String)) :=
  match assocLookup reg class_name with
  | none => .ok ((class_name, module_path) :: reg)
  | some existing =>
      if existing = module_path then .ok reg
      else if overwrite then .ok (assocSet reg class_name module_path)
      else .error .conflict

/-- Modelled from the spec: auto-registration of a loaded job subclass
(`has_groups.md`: "Attempts to auto-register a job type which is
already known to `JobType` is reported in the `pyiron.log` and
otherwise ignored").  Returns the new registry and whether the attempt
was only logged. -/
def auto_register (reg : List (String × String))
    (module_path class_name : String) : List (String × String) × Bool :=
  match assocLookup reg class_name with
  | some _ => (reg, true)
  | none => ((class_name, module_path) :: reg, false)

/-! ## External-executable jobs (spec §4.4, §8) -/

/-- The observable after-state of running an external-executable job:
status, the collected `output` dictionary (absent unless collection
happened), and the files present in the working directory. -/
structure ExtRunResult where
  status : Status
  output : Option (List (String × Value))
  files : List String
deriving DecidableEq, Repr

/-- Modelled from the spec: the external-executable run of §4.4 — the
subprocess runs with stdout/stderr redirected to files in the working
directory; "The external command's exit code is checked: non-zero exit
transitions to `aborted` and the raw stdout/stderr files are preserved
for diagnosis, never deleted on failure", and no `output` is written on
failure (§8 scenario); on zero exit `collect_output` parses results
into `output` and the job finishes. -/
def run_external (dirFiles : List String) (exit_code : Int)
    (collected : List (String × Value)) : ExtRunResult :=
  let filesAfter := dirFiles ++ ["stdout.log", "stderr.log"]
  if exit_code = 0 then
    { status := .finished, output := some collected, files := filesAfter }
  else
    { status := .aborted, output := none, files := filesAfter }

/-! ## Helper lemmas on association lists -/

theorem assocLookup_set_self {α : Type} (l : List (String × α)) (k : String) (v : α) :
    assocLookup (assocSet l k v) k = some v := by
  induction l with
  | nil => simp [assocSet, assocLookup]
  | cons hd tl ih =>
      obtain ⟨k0, w⟩ := hd
      by_cases hk : k0 = k
      · simp [assocSet, hk, assocLookup]
      · simp [assocSet, hk, assocLookup, ih]

theorem assocLookup_of_mem {α : Type} {l : List (String × α)} {k : String} {v : α}
    (hnd : (l.map Prod.fst).Nodup) (hm : (k, v) ∈ l) :
    assocLookup l k = some v := by
  induction l with
  | nil => cases hm
  | cons hd tl ih =>
      obtain ⟨k0, w⟩ := hd
      simp only [List.map_cons, List.nodup_cons] at hnd
      rcases List.mem_cons.mp hm with hEq | hTl
      · obtain ⟨hk, hv⟩ := Prod.mk.injEq .. ▸ hEq
        simp [assocLookup, hk.symm, hv]
      · have hk0 : k0 ≠ k := by
          intro hk0
          exact hnd.1 (hk0 ▸ List.mem_map_of_mem Prod.fst hTl)
        simp [assocLookup, hk0, ih hnd.2 hTl]

/-! ## Claim theorems -/

/-- C2: once a job's status is in the terminal set
`{finished, aborted, not_converged}`, every attempted transition out of
it is rejected by the status machine (`ConflictError`, no legal edge),
so no observer ever sees a job leave a terminal status. -/
theorem terminal_status_rejects_all_transitions (s t : Status)
    (h : s.isTerminal = true) :
    applyTransition s t = .error .conflict ∧ legalTransition s t = false := by
  cases s <;> simp [Status.isTerminal] at h <;>
    cases t <;> exact ⟨rfl, rfl⟩

/-- Witness for C2: the finished status rejects the transition back to
running. -/
theorem terminal_status_rejects_witness :
    applyTransition .finished .running = .error .conflict ∧
    legalTransition .finished .running = false :=
  terminal_status_rejects_all_transitions .finished .running (by decide)

/-- C3: when two processes race to claim the same `submitted` job via
the CAS-based claim step, the schedule's first claimant succeeds and
executes and the second fails — exactly one succeeds for either order of
the (symmetric) claimants — and the loser's claim step returns
`ConflictError`, so it performs no execution. -/
theorem claim_race_exactly_one_succeeds (row : IndexRow) (p q : Nat)
    (h : row.status = .submitted) :
    (runClaims row [p, q]).1 = [(p, true), (q, false)] ∧
    (runClaims row [p, q]).2 = { row with status := .busy } ∧
    (claim_step (claim_step row).2.2).1 = .error .conflict := by
  refine ⟨?_, ?_, ?_⟩ <;>
    simp [runClaims, claim_step, update_status, h]

/-- Witness for C3: two processes 0 and 1 race for submitted job 7. -/
theorem claim_race_witness :
    (runClaims ⟨7, .submitted⟩ [0, 1]).1 = [(0, true), (1, false)] ∧
    (runClaims ⟨7, .submitted⟩ [0, 1]).2 = ⟨7, .busy⟩ ∧
    (claim_step (claim_step ⟨7, .submitted⟩).2.2).1 = .error .conflict :=
  claim_race_exactly_one_succeeds ⟨7, .submitted⟩ 0 1 rfl

/-- C1: creating a job under a name that already exists in the project
either returns the existing job unchanged (load semantics, same job_id)
or raises `ConflictError`; the project state is unchanged, so no second
distinct job_id is ever allocated for that name and the existing job is
never overwritten. -/
theorem create_job_never_duplicates (st : ProjectState) (name : String)
    (id : Nat) (h : assocLookup st.jobs name = some id) :
    ((create_job st name).1 = .loaded id ∨ (create_job st name).1 = .conflict) ∧
    (create_job st name).2 = st ∧
    assocLookup (create_job st name).2.jobs name = some id := by
  simp [create_job, h]

/-- Witness for C1: a second creation of job `toy` returns the existing
id 1 and leaves the project untouched. -/
theorem create_job_never_duplicates_witness :
    ((create_job ⟨[("toy", 1)], 2⟩ "toy").1 = .loaded 1 ∨
      (create_job ⟨[("toy", 1)], 2⟩ "toy").1 = .conflict) ∧
    (create_job ⟨[("toy", 1)], 2⟩ "toy").2 = ⟨[("toy", 1)], 2⟩ ∧
    assocLookup (create_job ⟨[("toy", 1)], 2⟩ "toy").2.jobs "toy" = some 1 :=
  create_job_never_duplicates ⟨[("toy", 1)], 2⟩ "toy" 1 (by decide)

/-- C4: the finalize step commits output to storage before updating the
index; starting from any state satisfying the invariant "index shows
`finished` only if storage holds the output", the state after any
prefix of the finalize steps (a fault injected between the two steps is
the one-step prefix) still satisfies it — the index never shows
`finished` while storage lacks the committed output. -/
theorem finalize_commit_before_index (converged : Bool) (k : Nat)
    (s : FinalizeState)
    (h : s.index_status = .finished → s.storage_output = true) :
    (runSteps ((finalizeSteps converged).take k) s).index_status = .finished →
      (runSteps ((finalizeSteps converged).take k) s).storage_output = true := by
  match k with
  | 0 => simpa [runSteps, finalizeSteps] using h
  | 1 => simp [runSteps, finalizeSteps, commit_output]
  | n + 2 => simp [runSteps, finalizeSteps, commit_output, update_index]

/-- Witness for C4: a completed finalize of a collect-phase job shows
output in storage. -/
theorem finalize_commit_before_index_witness :
    (runSteps ((finalizeSteps true).take 2)
        ⟨false, .collect, .collect⟩).storage_output = true :=
  finalize_commit_before_index true 2 ⟨false, .collect, .collect⟩
    (by decide) (by decide)

/-- C5: submitting a python-function job wrapping
`test_function(a, b) = a + b` with input `a := 4, b := 5` in modal
(blocking) mode ends with status `finished` and `output["result"] = 9`. -/
theorem wrap_python_function_modal_scenario :
    (run_modal_pyfn (fun a b => test_function a b)
        { wrap_python_function with input := [("a", 4), ("b", 5)] }).status
      = .finished ∧
    assocLookup
      (run_modal_pyfn (fun a b => test_function a b)
        { wrap_python_function with input := [("a", 4), ("b", 5)] }).output
      "result" = some 9 := by
  constructor <;> rfl

/-- Helper for C6: reading back a written path returns the written leaf. -/
theorem read_write_eq (p : List String) (t : HTree) (v : Value) :
    read (write t p v) p = some (.leaf v) := by
  induction p generalizing t with
  | nil => simp [write, read]
  | cons k rest ih =>
      simp only [write, read, HTree.children, assocLookup_set_self]
      exact ih _

/-- C6: storage round-trip identity — for every supported value type,
every tree and every path, writing value `v` at path `p` and then
reading path `p` returns `v`. -/
theorem storage_round_trip (t : HTree) (p : List String) (v : Value) :
    readValue (write t p v) p = some v := by
  simp [readValue, read_write_eq]

/-- Helper for C7: membership in `list_nodes` names a leaf child. -/
theorem mem_list_nodes_iff (t : HTree) (n : String) :
    n ∈ list_nodes t ↔ ∃ c, (n, c) ∈ t.children ∧ c.isGroup = false := by
  constructor
  · intro hn
    obtain ⟨x, hx, hfst⟩ := List.mem_map.mp hn
    obtain ⟨hmem, hP⟩ := List.mem_filter.mp hx
    obtain ⟨a, c⟩ := x
    cases hfst
    exact ⟨c, hmem, by simpa using hP⟩
  · rintro ⟨c, hm, hg⟩
    exact List.mem_map.mpr
      ⟨(n, c), List.mem_filter.mpr ⟨hm, by simpa using hg⟩, rfl⟩

/-- Helper for C7: membership in `list_groups` names a sub-tree child. -/
theorem mem_list_groups_iff (t : HTree) (n : String) :
    n ∈ list_groups t ↔ ∃ c, (n, c) ∈ t.children ∧ c.isGroup = true := by
  constructor
  · intro hn
    obtain ⟨x, hx, hfst⟩ := List.mem_map.mp hn
    obtain ⟨hmem, hP⟩ := List.mem_filter.mp hx
    obtain ⟨a, c⟩ := x
    cases hfst
    exact ⟨c, hmem, hP⟩
  · rintro ⟨c, hm, hg⟩
    exact List.mem_map.mpr ⟨(n, c), List.mem_filter.mpr ⟨hm, hg⟩, rfl⟩

/-- Helper for C7: a one-segment read resolves through the child table. -/
theorem read_singleton (t : HTree) (n : String) {c : HTree}
    (h : assocLookup t.children n = some c) : read t [n] = some c := by
  simp [read, h]

/-- C7: for every tree of the `HasGroups` hierarchy (with the
well-formedness that child names are unique), `list_nodes` and
`list_groups` are disjoint, every child name appears in exactly one of
the two lists, every listed name resolves via `read` to a non-absent
value, names in `list_groups` resolve to objects that are themselves
groups (`HasGroups` instances) and names in `list_nodes` resolve to
objects that are not. -/
theorem hasgroups_partition (t : HTree) (h : t.childNames.Nodup) :
    (∀ n, ¬ (n ∈ list_nodes t ∧ n ∈ list_groups t)) ∧
    (∀ n, n ∈ t.childNames ↔ (n ∈ list_nodes t ∨ n ∈ list_groups t)) ∧
    (∀ n, n ∈ list_nodes t → ∃ c, read t [n] = some c ∧ c.isGroup = false) ∧
    (∀ n, n ∈ list_groups t → ∃ c, read t [n] = some c ∧ c.isGroup = true) := by
  have hnd : (t.children.map Prod.fst).Nodup := h
  refine ⟨?_, ?_, ?_, ?_⟩
  · rintro n ⟨hn, hg⟩
    obtain ⟨c1, hm1, hg1⟩ := (mem_list_nodes_iff t n).mp hn
    obtain ⟨c2, hm2, hg2⟩ := (mem_list_groups_iff t n).mp hg
    have e1 := assocLookup_of_mem hnd hm1
    have e2 := assocLookup_of_mem hnd hm2
    rw [e1] at e2
    cases Option.some.injEq .. ▸ e2
    rw [hg1] at hg2
    cases hg2
  · intro n
    constructor
    · intro hn
      obtain ⟨x, hm, hfst⟩ := List.mem_map.mp hn
      obtain ⟨a, c⟩ := x
      cases hfst
      cases hc : c.isGroup
      · exact Or.inl ((mem_list_nodes_iff t _).mpr ⟨c, hm, hc⟩)
      · exact Or.inr ((mem_list_groups_iff t _).mpr ⟨c, hm, hc⟩)
    · rintro (hn | hn)
      · obtain ⟨c, hm, _⟩ := (mem_list_nodes_iff t n).mp hn
        exact List.mem_map.mpr ⟨(n, c), hm, rfl⟩
      · obtain ⟨c, hm, _⟩ := (mem_list_groups_iff t n).mp hn
        exact List.mem_map.mpr ⟨(n, c), hm, rfl⟩
  · intro n hn
    obtain ⟨c, hm, hc⟩ := (mem_list_nodes_iff t n).mp hn
    exact ⟨c, read_singleton t n (assocLookup_of_mem hnd hm), hc⟩
  · intro n hn
    obtain ⟨c, hm, hc⟩ := (mem_list_groups_iff t n).mp hn
    exact ⟨c, read_singleton t n (assocLookup_of_mem hnd hm), hc⟩

/-- Witness for C7: in the tree with node `x` and group `g`, the name
`x` is not listed in both lists. -/
theorem hasgroups_partition_witness :
    ¬ ("x" ∈ list_nodes (.group [("x", .leaf (.int 1)), ("g", .group [])]) ∧
       "x" ∈ list_groups (.group [("x", .leaf (.int 1)), ("g", .group [])])) :=
  (hasgroups_partition (.group [("x", .leaf (.int 1)), ("g", .group [])])
    (by decide)).1 "x"

/-- C8: `register(module_path, class_name, overwrite := false)` raises
`ConflictError` exactly when a different class is already registered
under `class_name`; every successful call leaves `class_name` mapped to
the requested class; and with `overwrite` set the call never raises —
the existing mapping is replaced. -/
theorem register_conflict_spec (reg : List (String × String)) (mp cn : String) :
    (register reg mp cn false = .error .conflict ↔
      ∃ mp0, assocLookup reg cn = some mp0 ∧ mp0 ≠ mp) ∧
    (∀ ow newReg, register reg mp cn ow = .ok newReg →
      assocLookup newReg cn = some mp) ∧
    (∃ newReg, register reg mp cn true = .ok newReg) := by
  refine ⟨?_, ?_, ?_⟩
  · cases hl : assocLookup reg cn with
    | none => simp [register, hl]
    | some existing =>
        by_cases he : existing = mp
        · simp [register, hl, he]
        · have hr : register reg mp cn false = .error .conflict := by
            simp [register, hl, he]
          rw [hr]
          exact ⟨fun _ => ⟨existing, rfl, he⟩, fun _ => rfl⟩
  · intro ow newReg hok
    cases hl : assocLookup reg cn with
    | none =>
        have hr : register reg mp cn ow = .ok ((cn, mp) :: reg) := by
          simp [register, hl]
        rw [hr] at hok
        injection hok with hh
        subst hh
        simp [assocLookup]
    | some existing =>
        by_cases he : existing = mp
        · have hr : register reg mp cn ow = .ok reg := by
            simp [register, hl, he]
          rw [hr] at hok
          injection hok with hh
          subst hh
          rw [hl, he]
        · cases ow
          · have hr : register reg mp cn false = .error .conflict := by
              simp [register, hl, he]
            rw [hr] at hok
            exact Except.noConfusion hok
          · have hr : register reg mp cn true = .ok (assocSet reg cn mp) := by
              simp [register, hl, he]
            rw [hr] at hok
            injection hok with hh
            subst hh
            exact assocLookup_set_self reg cn mp
  · cases hl : assocLookup reg cn with
    | none => exact ⟨(cn, mp) :: reg, by simp [register, hl]⟩
    | some existing =>
        by_cases he : existing = mp
        · exact ⟨reg, by simp [register, hl, he]⟩
        · exact ⟨assocSet reg cn mp, by simp [register, hl, he]⟩

/-- Witness for C8: registering class `A` from module `m2` over an
existing registration from `m1` without `overwrite` raises
`ConflictError`. -/
theorem register_conflict_witness :
    register [("A", "m1")] "m2" "A" false = .error .conflict :=
  (register_conflict_spec [("A", "m1")] "m2" "A").1.mpr ⟨"m1", by decide, by decide⟩

/-- C9: an external-executable run whose command exits non-zero ends in
status `aborted`, writes no `output`, and preserves the working
directory's files including the redirected stdout/stderr files. -/
theorem external_nonzero_exit_aborts (dirFiles : List String) (ec : Int)
    (collected : List (String × Value)) (h : ec ≠ 0) :
    (run_external dirFiles ec collected).status = .aborted ∧
    (run_external dirFiles ec collected).output = none ∧
    "stdout.log" ∈ (run_external dirFiles ec collected).files ∧
    "stderr.log" ∈ (run_external dirFiles ec collected).files ∧
    ∀ f, f ∈ dirFiles → f ∈ (run_external dirFiles ec collected).files := by
  simp [run_external, h]
  exact fun f hf => Or.inl hf

/-- Witness for C9: exit code 1 aborts a run over an input file. -/
theorem external_nonzero_exit_witness :
    (run_external ["input_file"] 1 []).status = .aborted ∧
    (run_external ["input_file"] 1 []).output = none ∧
    "stdout.log" ∈ (run_external ["input_file"] 1 []).files ∧
    "stderr.log" ∈ (run_external ["input_file"] 1 []).files ∧
    ∀ f, f ∈ ["input_file"] → f ∈ (run_external ["input_file"] 1 []).files :=
  external_nonzero_exit_aborts ["input_file"] 1 [] (by decide)

/-- C10: auto-registering a job class whose name is already known
raises no error and leaves the registry unchanged (the attempt is only
reported in the log), in contrast to explicit `register`, which raises
`ConflictError` when the known class differs. -/
theorem auto_register_known_is_ignored (reg : List (String × String))
    (mp cn mp0 : String) (h : assocLookup reg cn = some mp0) :
    auto_register reg mp cn = (reg, true) ∧
    (mp0 ≠ mp → register reg mp cn false = .error .conflict) := by
  constructor
  · simp [auto_register, h]
  · intro hne
    simp [register, h, hne]

/-- Witness for C10: auto-registering the already-known class `A` is
ignored while explicit `register` of a different class raises. -/
theorem auto_register_known_witness :
    auto_register [("A", "m1")] "m3" "A" = ([("A", "m1")], true) ∧
    ("m1" ≠ "m3" → register [("A", "m1")] "m3" "A" false = .error .conflict) :=
  auto_register_known_is_ignored [("A", "m1")] "m3" "A" "m1" rfl

end PyironBase
